import Mathlib

/-!
Shallow embedding of the memory module of the mupen64plus core
(`src/device/memory/memory.c`, debug-capable `DBG` configuration, plus the
flat base resolver `init_mem_base` / `mem_base_u32`), together with theorems
settling the specification claims about it.

Handlers (`struct mem_handler`, a pair of entry points plus an abstract
context) are immutable value data for this module, so they are embedded as
an abstract type `H` with decidable equality at instances; copying a handler
is copying the value.  The 65536-slot arrays are embedded as functions from
region indices.  The external breakpoint registry (`lookup_breakpoint`) and
the platform allocator (`posix_memalign`) are external collaborators and are
embedded as oracle parameters.
-/

namespace Mupen

/-- Truncation of a value to the `uint32_t` range, the type of every address
in the source. -/
def u32 (a : Nat) : Nat := a % 4294967296

/-- Wrapping `uint32_t` subtraction, used by `mem_base_u32` for the pointer
offsets. -/
def u32sub (a b : Nat) : Nat := (a + 4294967296 - b) % 4294967296

/-- Region index of an address: the source computes
`uint16_t region = address >> 16` on a `uint32_t` address. -/
def region32 (address : Nat) : Nat := u32 address >>> 16

/-- Pointwise update of a table embedded as a function; models a store into
one slot of one of the 65536-entry arrays. -/
def upd {α : Type} (f : Nat → α) (i : Nat) (v : α) : Nat → α :=
  fun j => if j = i then v else f j

/-- Constant `BP_CHECK_READ` from the source enum. -/
def BP_CHECK_READ : Nat := 1

/-- Constant `BP_CHECK_WRITE` from the source enum. -/
def BP_CHECK_WRITE : Nat := 2

/-- The state of `struct memory` in the `DBG` configuration: live handler
table, saved-handler shadow table, breakpoint mask array (`unsigned char`
cells), the shared debug handler, the region type array and the flat base
pointer (embedded as an abstract number). -/
structure Memory (H : Type) where
  handlers : Nat → H
  saved_handlers : Nat → H
  bp_checks : Nat → Nat
  dbg_handler : H
  memtype : Nat → Int
  base : Nat

/-- Source `activate_memory_break_read`: if neither breakpoint kind is active for
the region, capture the live handler into the shadow slot and install the
debug handler; then set the read bit. -/
def activate_memory_break_read {H : Type} (mem : Memory H) (address : Nat) : Memory H :=
  let r := region32 address
  let mem1 :=
    if mem.bp_checks r &&& (BP_CHECK_READ ||| BP_CHECK_WRITE) = 0 then
      { mem with
          saved_handlers := upd mem.saved_handlers r (mem.handlers r),
          handlers := upd mem.handlers r mem.dbg_handler }
    else mem
  { mem1 with bp_checks := upd mem1.bp_checks r (mem1.bp_checks r ||| BP_CHECK_READ) }

/-- Source `deactivate_memory_break_read`: clear the read bit (the source stores
`*bp_check &= ~BP_CHECK_READ` into an 8-bit cell, i.e. masks with `0xfe`);
if neither bit remains set, copy the shadow slot back into the live slot. -/
def deactivate_memory_break_read {H : Type} (mem : Memory H) (address : Nat) : Memory H :=
  let r := region32 address
  let mem1 := { mem with bp_checks := upd mem.bp_checks r (mem.bp_checks r &&& 0xfe) }
  if mem1.bp_checks r &&& (BP_CHECK_READ ||| BP_CHECK_WRITE) = 0 then
    { mem1 with handlers := upd mem1.handlers r (mem1.saved_handlers r) }
  else mem1

/-- Source `activate_memory_break_write`: mirror image of the read activation. -/
def activate_memory_break_write {H : Type} (mem : Memory H) (address : Nat) : Memory H :=
  let r := region32 address
  let mem1 :=
    if mem.bp_checks r &&& (BP_CHECK_READ ||| BP_CHECK_WRITE) = 0 then
      { mem with
          saved_handlers := upd mem.saved_handlers r (mem.handlers r),
          handlers := upd mem.handlers r mem.dbg_handler }
    else mem
  { mem1 with bp_checks := upd mem1.bp_checks r (mem1.bp_checks r ||| BP_CHECK_WRITE) }

/-- Source `deactivate_memory_break_write`: clear the write bit (mask with `0xfd`);
if neither bit remains set, copy the shadow slot back into the live slot. -/
def deactivate_memory_break_write {H : Type} (mem : Memory H) (address : Nat) : Memory H :=
  let r := region32 address
  let mem1 := { mem with bp_checks := upd mem.bp_checks r (mem.bp_checks r &&& 0xfd) }
  if mem1.bp_checks r &&& (BP_CHECK_READ ||| BP_CHECK_WRITE) = 0 then
    { mem1 with handlers := upd mem1.handlers r (mem1.saved_handlers r) }
  else mem1

/-- Source `read_with_bp_checks`, the debug read trampoline: it reports a
breakpoint hit to the external collaborator exactly when the read bit of the
region mask is set, and always forwards the access to the saved handler of
the region via `mem_read32`.  The embedding returns the pair
(hit reported?, handler forwarded to); the hit metadata (faulting pc, width,
flags) goes to the external collaborator and is not part of this state. -/
def read_with_bp_checks {H : Type} (mem : Memory H) (address : Nat) : Bool × H :=
  let r := region32 address
  (mem.bp_checks r &&& BP_CHECK_READ != 0, mem.saved_handlers r)

/-- Source `write_with_bp_checks`, the debug write trampoline: reports exactly when
the write bit is set and always forwards to the saved handler. -/
def write_with_bp_checks {H : Type} (mem : Memory H) (address : Nat) : Bool × H :=
  let r := region32 address
  (mem.bp_checks r &&& BP_CHECK_WRITE != 0, mem.saved_handlers r)

/-- Source `struct mem_mapping`: begin and end addresses (inclusive), region type
and handler.  The source field names are `begin` and `end`; `end` is a
reserved word here, so the fields are `mbegin` and `mend`. -/
structure MemMapping (H : Type) where
  mbegin : Nat
  mend : Nat
  type : Int
  handler : H

/-- Source `map_region`: set the region type, then either store the handler into
the live slot, or, when the external breakpoint registry reports an enabled
breakpoint for the region (`lookup_breakpoint(region << 16, 0x10000,
M64P_BKP_FLAG_ENABLED) != -1`, embedded as the oracle `bpEnabled`), store it
into the shadow slot and install the debug handler into the live slot. -/
def map_region {H : Type} (bpEnabled : Nat → Bool) (mem : Memory H)
    (r : Nat) (ty : Int) (h : H) : Memory H :=
  let mem1 := { mem with memtype := upd mem.memtype r ty }
  if bpEnabled r then
    { mem1 with
        saved_handlers := upd mem1.saved_handlers r h,
        handlers := upd mem1.handlers r mem1.dbg_handler }
  else
    { mem1 with handlers := upd mem1.handlers r h }

/-- The inclusive list of region indices `b, b+1, ..., e` walked by the
`for (i = begin; i <= end; ++i)` loop of `apply_mem_mapping`. -/
def regionRange (b e : Nat) : List Nat :=
  (List.range (e + 1 - b)).map (fun k => b + k)

/-- Source `apply_mem_mapping`: map every region index in the inclusive range
`[begin >> 16, end >> 16]`. -/
def apply_mem_mapping {H : Type} (bpEnabled : Nat → Bool) (mem : Memory H)
    (m : MemMapping H) : Memory H :=
  (regionRange (region32 m.mbegin) (region32 m.mend)).foldl
    (fun acc r => map_region bpEnabled acc r m.type m.handler) mem

/-- Source `init_memory` in the `DBG` configuration: clear the breakpoint mask
array, copy the debug handler, store the base pointer, then apply each
mapping in sequence.  Note that the live handler, shadow and region type
arrays are not written here except through the supplied mappings. -/
def init_memory {H : Type} (bpEnabled : Nat → Bool) (mem : Memory H)
    (mappings : List (MemMapping H)) (base : Nat) (dbg : H) : Memory H :=
  let mem1 := { mem with bp_checks := fun _ => 0, dbg_handler := dbg, base := base }
  mappings.foldl (fun acc m => apply_mem_mapping bpEnabled acc m) mem1

/-- The five buffers of `MemoryBase`, in the allocation order of
`init_mem_base`. -/
inductive MbBuf
  | rdram
  | cartrom
  | rspmem
  | ddrom
  | pifmem
deriving DecidableEq, Repr

/-- Source `MemoryBase`: the five buffer pointers; `none` embeds a null pointer,
`some p` a host pointer with identity `p`. -/
structure MemoryBase where
  rdram : Option Nat
  cartrom : Option Nat
  rspmem : Option Nat
  ddrom : Option Nat
  pifmem : Option Nat
deriving DecidableEq, Repr

/-- Outcome of one `init_mem_base` call: the `int` return code, the final
`MemoryBase` contents, the buffers allocated during the call and still
allocated when it returns (`live`, in allocation order), and the buffers
named in `DebugMessage` failure diagnostics (`log`). -/
structure AllocResult where
  ret : Nat
  mb : MemoryBase
  live : List MbBuf
  log : List MbBuf
deriving DecidableEq, Repr

/-- Source `init_mem_base` (the `posix_memalign` branch; the `_WIN32` branch has
the same control flow): allocate the five buffers in order; on the first
failure, store a null into the failed field, log a message naming that
buffer and return 1 without releasing the earlier buffers; on full success
return 0.  The platform allocator is the oracle `alloc`: `some p` is a
successful allocation of pointer `p`, `none` a failure. -/
def init_mem_base (alloc : MbBuf → Option Nat) (mb : MemoryBase) : AllocResult :=
  match alloc .rdram with
  | none => ⟨1, { mb with rdram := none }, [], [.rdram]⟩
  | some p1 =>
  match alloc .cartrom with
  | none => ⟨1, { mb with rdram := some p1, cartrom := none }, [.rdram], [.cartrom]⟩
  | some p2 =>
  match alloc .rspmem with
  | none =>
    ⟨1, { mb with rdram := some p1, cartrom := some p2, rspmem := none },
      [.rdram, .cartrom], [.rspmem]⟩
  | some p3 =>
  match alloc .ddrom with
  | none =>
    ⟨1, { mb with rdram := some p1, cartrom := some p2, rspmem := some p3, ddrom := none },
      [.rdram, .cartrom, .rspmem], [.ddrom]⟩
  | some p4 =>
  match alloc .pifmem with
  | none =>
    ⟨1, { mb with rdram := some p1, cartrom := some p2, rspmem := some p3,
                  ddrom := some p4, pifmem := none },
      [.rdram, .cartrom, .rspmem, .ddrom], [.pifmem]⟩
  | some p5 =>
    ⟨0, { mb with rdram := some p1, cartrom := some p2, rspmem := some p3,
                  ddrom := some p4, pifmem := some p5 },
      [.rdram, .cartrom, .rspmem, .ddrom, .pifmem], []⟩

/-- Modelled from the spec: the numeric memory-map constants and the five
buffer sizes used by `mem_base_u32` and `init_mem_base` are defined in
`memory.h`, which is not among the sources; the spec treats them as fixed
platform constants supplied by the hardware memory map and does not restate
their values, so they are kept abstract.  `PIF_MEM_SIZE` stands for the sum
`PIF_ROM_SIZE + PIF_RAM_SIZE` of the boot buffer allocation. -/
structure MemConstants where
  MM_RDRAM_DRAM : Nat
  MM_RDRAM_REGS : Nat
  MM_RSP_MEM : Nat
  MM_DD_ROM : Nat
  MM_RDRAM_DRAM2 : Nat
  MM_CART_ROM : Nat
  MM_PIF_MEM : Nat
  RDRAM_MEMORY_SIZE : Nat
  CART_ROM_MAX_SIZE : Nat
  SP_MEM_SIZE : Nat
  DD_ROM_MAX_SIZE : Nat
  PIF_MEM_SIZE : Nat
deriving DecidableEq, Repr

/-- A host pointer produced by `mem_base_u32`: a byte offset into exactly
one of the five buffers. -/
inductive MbPtr
  | rdram (off : Nat)
  | cartrom (off : Nat)
  | rspmem (off : Nat)
  | ddrom (off : Nat)
  | pifmem (off : Nat)
deriving DecidableEq, Repr

/-- Source `mem_base_u32`: translate a `uint32_t` address into a pointer into one
of the five buffers, or null.  The branch structure and the mask constants
`0xfff00000`, `0xfe000000`, `0xffffe000` are exactly those of the source. -/
def mem_base_u32 (c : MemConstants) (address : Nat) : Option MbPtr :=
  if u32 address < c.MM_RDRAM_REGS then
    some (.rdram (u32sub (u32 address) c.MM_RDRAM_DRAM))
  else if c.MM_CART_ROM ≤ u32 address then
    if u32 address &&& 0xfff00000 = c.MM_PIF_MEM then
      some (.pifmem (u32sub (u32 address) c.MM_PIF_MEM))
    else
      some (.cartrom (u32sub (u32 address) c.MM_CART_ROM))
  else if u32 address &&& 0xfe000000 = c.MM_DD_ROM then
    some (.ddrom (u32sub (u32 address) c.MM_DD_ROM))
  else if u32 address &&& 0xffffe000 = c.MM_RSP_MEM then
    some (.rspmem (u32sub (u32 address) c.MM_RSP_MEM))
  else if c.MM_RDRAM_DRAM2 ≤ u32 address then
    some (.rdram ((u32sub (u32 address) c.MM_RDRAM_DRAM2 + c.MM_RDRAM_REGS) % 4294967296))
  else
    none

/-- The address-range priority rules of spec section 4.2, stated the way the
spec states them: an ordered list of (guard, target) pairs, evaluated top to
bottom.  Rule 2 is a single rule for addresses at or above the cartridge-ROM
base whose target is the boot buffer when the address also falls in the
fixed high-order boot window and the cartridge-ROM buffer otherwise.  This
definition follows the words of the spec; it is compared against the source
translation `mem_base_u32`. -/
def resolveRules (c : MemConstants) (address : Nat) : List (Bool × MbPtr) :=
  [ (decide (u32 address < c.MM_RDRAM_REGS),
      .rdram (u32sub (u32 address) c.MM_RDRAM_DRAM)),
    (decide (c.MM_CART_ROM ≤ u32 address),
      if u32 address &&& 0xfff00000 = c.MM_PIF_MEM then
        .pifmem (u32sub (u32 address) c.MM_PIF_MEM)
      else
        .cartrom (u32sub (u32 address) c.MM_CART_ROM)),
    (decide (u32 address &&& 0xfe000000 = c.MM_DD_ROM),
      .ddrom (u32sub (u32 address) c.MM_DD_ROM)),
    (decide (u32 address &&& 0xffffe000 = c.MM_RSP_MEM),
      .rspmem (u32sub (u32 address) c.MM_RSP_MEM)),
    (decide (c.MM_RDRAM_DRAM2 ≤ u32 address),
      .rdram ((u32sub (u32 address) c.MM_RDRAM_DRAM2 + c.MM_RDRAM_REGS) % 4294967296)) ]

/-- First match wins over the spec rule list; no match is the null result
(spec rule 6). -/
def mem_base_u32_spec (c : MemConstants) (address : Nat) : Option MbPtr :=
  ((resolveRules c address).find? (fun p => p.fst)).map (fun p => p.snd)

/-- A pointer lies strictly within the bounds of the buffer it designates. -/
def mbPtrInBounds (c : MemConstants) : MbPtr → Prop
  | .rdram off => off < c.RDRAM_MEMORY_SIZE
  | .cartrom off => off < c.CART_ROM_MAX_SIZE
  | .rspmem off => off < c.SP_MEM_SIZE
  | .ddrom off => off < c.DD_ROM_MAX_SIZE
  | .pifmem off => off < c.PIF_MEM_SIZE

/-- A resolver result is in bounds when it is null or designates an offset
strictly inside its buffer. -/
def mbResolveInBounds (c : MemConstants) : Option MbPtr → Prop
  | none => True
  | some p => mbPtrInBounds c p

/-- Size relations between the abstract memory-map constants and buffer
sizes under which every pointer produced by `mem_base_u32` stays inside its
buffer.  Each conjunct is forced by one branch of the source: the window
widths `2^20`, `2^25` and `2^13` are the complements of the source masks
`0xfff00000`, `0xfe000000` and `0xffffe000`, and the cartridge branch
accepts every address up to `2^32 - 1` at or above the cartridge base. -/
def mbSizeOK (c : MemConstants) : Prop :=
  c.MM_RDRAM_DRAM = 0 ∧
  c.MM_RDRAM_REGS ≤ c.RDRAM_MEMORY_SIZE ∧
  4294967296 - c.MM_CART_ROM ≤ c.CART_ROM_MAX_SIZE ∧
  1048576 ≤ c.PIF_MEM_SIZE ∧
  33554432 ≤ c.DD_ROM_MAX_SIZE ∧
  8192 ≤ c.SP_MEM_SIZE ∧
  c.MM_CART_ROM - c.MM_RDRAM_DRAM2 + c.MM_RDRAM_REGS ≤ c.RDRAM_MEMORY_SIZE ∧
  c.MM_CART_ROM - c.MM_RDRAM_DRAM2 + c.MM_RDRAM_REGS < 4294967296

/-- The four runtime mutation operations of the breakpoint overlay. -/
inductive BpOp
  | actR
  | actW
  | deactR
  | deactW
deriving DecidableEq, Repr

/-- Apply one breakpoint operation at one address. -/
def applyBpOp {H : Type} (mem : Memory H) : BpOp × Nat → Memory H
  | (.actR, a) => activate_memory_break_read mem a
  | (.actW, a) => activate_memory_break_write mem a
  | (.deactR, a) => deactivate_memory_break_read mem a
  | (.deactW, a) => deactivate_memory_break_write mem a

/-- Run a sequence of breakpoint operations. -/
def runBpOps {H : Type} (mem : Memory H) (ops : List (BpOp × Nat)) : Memory H :=
  ops.foldl applyBpOp mem

/-- A deactivation step is well paired when some breakpoint kind is active
for the target region; activations are always well paired. -/
def bpStepOk {H : Type} (mem : Memory H) : BpOp × Nat → Bool
  | (.deactR, a) => mem.bp_checks (region32 a) != 0
  | (.deactW, a) => mem.bp_checks (region32 a) != 0
  | (.actR, _) => true
  | (.actW, _) => true

/-- A sequence is well paired when every step is well paired in the state
it executes in. -/
def bpSeqOk {H : Type} : Memory H → List (BpOp × Nat) → Bool
  | _, [] => true
  | mem, op :: ops => bpStepOk mem op && bpSeqOk (applyBpOp mem op) ops

/-- The interception invariant of the spec data model, relative to the
state `mem0` the operation sequence started from: masks stay in the two-bit
range, a region with a zero mask has its original live handler in the live
slot, and a region with a nonzero mask has its original (pre-interception)
handler in the shadow slot and the shared debug handler in the live slot. -/
def bpInvariant {H : Type} (mem0 mem : Memory H) : Prop :=
  mem.dbg_handler = mem0.dbg_handler ∧
  ∀ r : Nat,
    mem.bp_checks r < 4 ∧
    (mem.bp_checks r = 0 → mem.handlers r = mem0.handlers r) ∧
    (mem.bp_checks r ≠ 0 →
      mem.saved_handlers r = mem0.handlers r ∧ mem.handlers r = mem0.dbg_handler)

/-- Sample dispatch state: live handler 10 everywhere, shadow 20 everywhere,
all masks clear, debug handler 99. -/
def memSampleA : Memory Nat :=
  ⟨fun _ => 10, fun _ => 20, fun _ => 0, 99, fun _ => 0, 0⟩

/-- Sample dispatch state like `memSampleA` but with live handler 11. -/
def memSampleB : Memory Nat :=
  ⟨fun _ => 11, fun _ => 20, fun _ => 0, 99, fun _ => 0, 0⟩

/-- Sample dispatch state with the read breakpoint bit already set for
every region. -/
def memSampleR : Memory Nat :=
  ⟨fun _ => 10, fun _ => 20, fun _ => 1, 99, fun _ => 0, 0⟩

/-- Breakpoint registry oracle reporting no enabled breakpoint anywhere. -/
def bpNone : Nat → Bool := fun _ => false

/-- Breakpoint registry oracle reporting an enabled breakpoint everywhere. -/
def bpAll : Nat → Bool := fun _ => true

/-- A mapping covering exactly region 0, with type tag 5 and handler 30. -/
def mapSample : MemMapping Nat := ⟨0, 0xffff, 5, 30⟩

/-- A fresh `MemoryBase` with all five pointers null. -/
def mbNull : MemoryBase := ⟨none, none, none, none, none⟩

/-- Allocation oracle for which the fourth buffer in allocation order
(`ddrom`) fails and every other allocation succeeds. -/
def allocFail4 : MbBuf → Option Nat
  | .rdram => some 1
  | .cartrom => some 2
  | .rspmem => some 3
  | .ddrom => none
  | .pifmem => some 9

/-- A mapping covering exactly regions 1 and 2, with type tag 7 and
handler 33. -/
def mapSample2 : MemMapping Nat := ⟨0x10000, 0x2ffff, 7, 33⟩

/-- A well-paired sample operation sequence: activate then deactivate the
read breakpoint on region 0 at address 5. -/
def opsSample : List (BpOp × Nat) := [(.actR, 5), (.deactR, 5)]

/-- A concrete constant assignment satisfying `mbSizeOK`, used to
instantiate the conditional bounds theorem. -/
def mcSample : MemConstants :=
  ⟨0, 0x03f00000, 0x04000000, 0x06000000, 0x08000000, 0x10000000, 0x1fc00000,
   0x10000000, 0xf0000000, 0x2000, 0x2000000, 0x100000⟩

/-! Helper lemmas. -/

theorem upd_self {α : Type} (f : Nat → α) (r : Nat) : upd f r (f r) = f := by
  funext j
  unfold upd
  split
  · rename_i hj
    rw [hj]
  · rfl

theorem upd_eq_self_iff {α : Type} (f : Nat → α) (r : Nat) (v : α) :
    upd f r v = f ↔ v = f r := by
  constructor
  · intro h
    have := congrFun h r
    simpa [upd] using this
  · intro h
    rw [h, upd_self]

theorem bp_lt4_cases (b : Nat) (h : b < 4) : b = 0 ∨ b = 1 ∨ b = 2 ∨ b = 3 := by
  omega

/-- A bit-and with a mask of the form `2 ^ n - 2 ^ k` keeps exactly the bits
from position `k` up to position `n`, i.e. it rounds a value below `2 ^ n`
down to a multiple of `2 ^ k`. -/
theorem land_high_mask (n k a : Nat) (hk : k ≤ n) (ha : a < 2 ^ n) :
    a &&& (2 ^ n - 2 ^ k) = a - a % 2 ^ k := by
  have h1 : (2 ^ (n - k) - 1) <<< k = 2 ^ n - 2 ^ k := by
    rw [Nat.shiftLeft_eq, Nat.sub_one_mul, ← Nat.pow_add, Nat.sub_add_cancel hk]
  have h2 : (a >>> k) <<< k = a - a % 2 ^ k := by
    rw [Nat.shiftRight_eq_div_pow, Nat.shiftLeft_eq]
    have h3 := Nat.div_add_mod a (2 ^ k)
    have h4 : a / 2 ^ k * 2 ^ k = 2 ^ k * (a / 2 ^ k) := Nat.mul_comm _ _
    omega
  rw [← h1, ← h2]
  apply Nat.eq_of_testBit_eq
  intro i
  rw [Nat.testBit_and, Nat.testBit_shiftLeft, Nat.testBit_shiftLeft,
    Nat.testBit_shiftRight, Nat.testBit_two_pow_sub_one]
  by_cases hki : k ≤ i
  · have hsum : k + (i - k) = i := by omega
    by_cases hin : i < n
    · have hlt : i - k < n - k := by omega
      simp [hki, hsum, hlt, ge_iff_le]
    · have hbit : a.testBit i = false := by
        apply Nat.testBit_lt_two_pow
        calc a < 2 ^ n := ha
          _ ≤ 2 ^ i := Nat.pow_le_pow_right (by omega) (by omega)
      have hlt : ¬(i - k < n - k) := by omega
      simp [hki, hsum, hlt, hbit, ge_iff_le]
  · simp [hki, ge_iff_le]

theorem mem_regionRange (b e r : Nat) : r ∈ regionRange b e ↔ b ≤ r ∧ r ≤ e := by
  unfold regionRange
  simp only [List.mem_map, List.mem_range]
  constructor
  · rintro ⟨k, hk, rfl⟩
    omega
  · rintro ⟨hb, he⟩
    exact ⟨r - b, by omega, by omega⟩

/-! Component lemmas for `map_region` and the `apply_mem_mapping` fold. -/

theorem map_region_bp {H : Type} (bpE : Nat → Bool) (mem : Memory H)
    (x : Nat) (ty : Int) (h : H) :
    (map_region bpE mem x ty h).bp_checks = mem.bp_checks := by
  unfold map_region
  split <;> rfl

theorem map_region_dbg {H : Type} (bpE : Nat → Bool) (mem : Memory H)
    (x : Nat) (ty : Int) (h : H) :
    (map_region bpE mem x ty h).dbg_handler = mem.dbg_handler := by
  unfold map_region
  split <;> rfl

theorem map_region_frame {H : Type} (bpE : Nat → Bool) (mem : Memory H)
    (x : Nat) (ty : Int) (h : H) (r : Nat) (hne : r ≠ x) :
    (map_region bpE mem x ty h).handlers r = mem.handlers r ∧
    (map_region bpE mem x ty h).saved_handlers r = mem.saved_handlers r ∧
    (map_region bpE mem x ty h).memtype r = mem.memtype r := by
  unfold map_region
  split <;> simp [upd, hne]

theorem map_region_at {H : Type} (bpE : Nat → Bool) (mem : Memory H)
    (r : Nat) (ty : Int) (h : H) :
    (map_region bpE mem r ty h).memtype r = ty ∧
    (bpE r = true →
      (map_region bpE mem r ty h).saved_handlers r = h ∧
      (map_region bpE mem r ty h).handlers r = mem.dbg_handler) ∧
    (bpE r = false →
      (map_region bpE mem r ty h).handlers r = h ∧
      (map_region bpE mem r ty h).saved_handlers r = mem.saved_handlers r) := by
  unfold map_region
  by_cases hb : bpE r = true <;> simp [hb, upd]

theorem map_region_saved_stable {H : Type} (bpE : Nat → Bool) (mem : Memory H)
    (x : Nat) (ty : Int) (h : H) (r : Nat) (hb : bpE r = false) :
    (map_region bpE mem x ty h).saved_handlers r = mem.saved_handlers r := by
  by_cases hne : r = x
  · subst hne
    unfold map_region
    simp [hb]
  · exact (map_region_frame bpE mem x ty h r hne).2.1

theorem foldl_map_region_bp {H : Type} (bpE : Nat → Bool) (ty : Int) (h : H) :
    ∀ (l : List Nat) (mem : Memory H),
      (l.foldl (fun acc r => map_region bpE acc r ty h) mem).bp_checks = mem.bp_checks ∧
      (l.foldl (fun acc r => map_region bpE acc r ty h) mem).dbg_handler = mem.dbg_handler := by
  intro l
  induction l with
  | nil => intro mem; exact ⟨rfl, rfl⟩
  | cons x xs ih =>
    intro mem
    have hx := ih (map_region bpE mem x ty h)
    simp only [List.foldl_cons] at *
    rw [hx.1, hx.2, map_region_bp, map_region_dbg]
    exact ⟨rfl, rfl⟩

theorem foldl_map_region_frame {H : Type} (bpE : Nat → Bool) (ty : Int) (h : H) :
    ∀ (l : List Nat) (mem : Memory H) (r : Nat), r ∉ l →
      (l.foldl (fun acc r => map_region bpE acc r ty h) mem).handlers r = mem.handlers r ∧
      (l.foldl (fun acc r => map_region bpE acc r ty h) mem).saved_handlers r
        = mem.saved_handlers r ∧
      (l.foldl (fun acc r => map_region bpE acc r ty h) mem).memtype r = mem.memtype r := by
  intro l
  induction l with
  | nil => intro mem r _; exact ⟨rfl, rfl, rfl⟩
  | cons x xs ih =>
    intro mem r hr
    have hne : r ≠ x := by
      intro hcontra
      exact hr (by rw [hcontra]; exact List.mem_cons_self x xs)
    have hnotin : r ∉ xs := fun hmem => hr (List.mem_cons_of_mem x hmem)
    simp only [List.foldl_cons]
    have h1 := ih (map_region bpE mem x ty h) r hnotin
    have h2 := map_region_frame bpE mem x ty h r hne
    exact ⟨h1.1.trans h2.1, h1.2.1.trans h2.2.1, h1.2.2.trans h2.2.2⟩

theorem foldl_map_region_covered {H : Type} (bpE : Nat → Bool) (ty : Int) (h : H) :
    ∀ (l : List Nat) (mem : Memory H) (r : Nat), r ∈ l →
      (l.foldl (fun acc r => map_region bpE acc r ty h) mem).memtype r = ty ∧
      (bpE r = true →
        (l.foldl (fun acc r => map_region bpE acc r ty h) mem).saved_handlers r = h ∧
        (l.foldl (fun acc r => map_region bpE acc r ty h) mem).handlers r
          = mem.dbg_handler) ∧
      (bpE r = false →
        (l.foldl (fun acc r => map_region bpE acc r ty h) mem).handlers r = h ∧
        (l.foldl (fun acc r => map_region bpE acc r ty h) mem).saved_handlers r
          = mem.saved_handlers r) := by
  intro l
  induction l with
  | nil => intro mem r hr; exact absurd hr (List.not_mem_nil r)
  | cons x xs ih =>
    intro mem r hr
    simp only [List.foldl_cons]
    by_cases hin : r ∈ xs
    · have hx := ih (map_region bpE mem x ty h) r hin
      refine ⟨hx.1, ?_, ?_⟩
      · intro hb
        exact ⟨(hx.2.1 hb).1, (hx.2.1 hb).2.trans (map_region_dbg bpE mem x ty h)⟩
      · intro hb
        exact ⟨(hx.2.2 hb).1,
          (hx.2.2 hb).2.trans (map_region_saved_stable bpE mem x ty h r hb)⟩
    · have hrx : r = x := by
        rcases List.mem_cons.mp hr with h1 | h2
        · exact h1
        · exact absurd h2 hin
      subst hrx
      have hfr := foldl_map_region_frame bpE ty h xs (map_region bpE mem r ty h) r hin
      have hat := map_region_at bpE mem r ty h
      refine ⟨hfr.2.2.trans hat.1, ?_, ?_⟩
      · intro hb
        exact ⟨hfr.2.1.trans (hat.2.1 hb).1, hfr.1.trans (hat.2.1 hb).2⟩
      · intro hb
        exact ⟨hfr.1.trans (hat.2.2 hb).1, hfr.2.1.trans (hat.2.2 hb).2⟩

theorem apply_mem_mapping_bp {H : Type} (bpE : Nat → Bool) (mem : Memory H)
    (m : MemMapping H) :
    (apply_mem_mapping bpE mem m).bp_checks = mem.bp_checks ∧
    (apply_mem_mapping bpE mem m).dbg_handler = mem.dbg_handler := by
  unfold apply_mem_mapping
  exact foldl_map_region_bp bpE m.type m.handler _ mem

theorem apply_mem_mapping_out {H : Type} (bpE : Nat → Bool) (mem : Memory H)
    (m : MemMapping H) (r : Nat)
    (hr : ¬(region32 m.mbegin ≤ r ∧ r ≤ region32 m.mend)) :
    (apply_mem_mapping bpE mem m).handlers r = mem.handlers r ∧
    (apply_mem_mapping bpE mem m).saved_handlers r = mem.saved_handlers r ∧
    (apply_mem_mapping bpE mem m).memtype r = mem.memtype r := by
  unfold apply_mem_mapping
  exact foldl_map_region_frame bpE m.type m.handler _ mem r
    (fun hmem => hr ((mem_regionRange _ _ r).mp hmem))

theorem apply_mem_mapping_in {H : Type} (bpE : Nat → Bool) (mem : Memory H)
    (m : MemMapping H) (r : Nat)
    (hb : region32 m.mbegin ≤ r) (he : r ≤ region32 m.mend) :
    (apply_mem_mapping bpE mem m).memtype r = m.type ∧
    (bpE r = true →
      (apply_mem_mapping bpE mem m).saved_handlers r = m.handler ∧
      (apply_mem_mapping bpE mem m).handlers r = mem.dbg_handler) ∧
    (bpE r = false →
      (apply_mem_mapping bpE mem m).handlers r = m.handler ∧
      (apply_mem_mapping bpE mem m).saved_handlers r = mem.saved_handlers r) := by
  unfold apply_mem_mapping
  exact foldl_map_region_covered bpE m.type m.handler _ mem r
    ((mem_regionRange _ _ r).mpr ⟨hb, he⟩)

/-! Characterization lemmas for the four breakpoint operations.  The read
and write variants differ only in the bit they set (`1` or `2`) or the cell
mask they apply (`0xfe` or `0xfd`), so they are described through the two
generic forms below, which are definitionally equal to the source
translations. -/

theorem bpActivate_char {H : Type} (bit : Nat) (mem : Memory H) (a : Nat)
    (op : Memory H)
    (hop : op =
      (let r := region32 a
       let mem1 :=
         if mem.bp_checks r &&& (BP_CHECK_READ ||| BP_CHECK_WRITE) = 0 then
           { mem with
               saved_handlers := upd mem.saved_handlers r (mem.handlers r),
               handlers := upd mem.handlers r mem.dbg_handler }
         else mem
       { mem1 with bp_checks := upd mem1.bp_checks r (mem1.bp_checks r ||| bit) })) :
    op.dbg_handler = mem.dbg_handler ∧
    op.base = mem.base ∧
    op.memtype = mem.memtype ∧
    op.bp_checks = upd mem.bp_checks (region32 a) (mem.bp_checks (region32 a) ||| bit) ∧
    (mem.bp_checks (region32 a) &&& 3 = 0 →
      op.handlers = upd mem.handlers (region32 a) mem.dbg_handler ∧
      op.saved_handlers = upd mem.saved_handlers (region32 a) (mem.handlers (region32 a))) ∧
    (mem.bp_checks (region32 a) &&& 3 ≠ 0 →
      op.handlers = mem.handlers ∧
      op.saved_handlers = mem.saved_handlers) := by
  subst hop
  unfold BP_CHECK_READ BP_CHECK_WRITE
  by_cases hc : mem.bp_checks (region32 a) &&& 3 = 0 <;> simp [hc]

theorem bpDeactivate_char {H : Type} (mask : Nat) (mem : Memory H) (a : Nat)
    (op : Memory H)
    (hop : op =
      (let r := region32 a
       let mem1 := { mem with bp_checks := upd mem.bp_checks r (mem.bp_checks r &&& mask) }
       if mem1.bp_checks r &&& (BP_CHECK_READ ||| BP_CHECK_WRITE) = 0 then
         { mem1 with handlers := upd mem1.handlers r (mem1.saved_handlers r) }
       else mem1)) :
    op.dbg_handler = mem.dbg_handler ∧
    op.base = mem.base ∧
    op.memtype = mem.memtype ∧
    op.saved_handlers = mem.saved_handlers ∧
    op.bp_checks = upd mem.bp_checks (region32 a) (mem.bp_checks (region32 a) &&& mask) ∧
    ((mem.bp_checks (region32 a) &&& mask) &&& 3 = 0 →
      op.handlers = upd mem.handlers (region32 a) (mem.saved_handlers (region32 a))) ∧
    ((mem.bp_checks (region32 a) &&& mask) &&& 3 ≠ 0 →
      op.handlers = mem.handlers) := by
  subst hop
  unfold BP_CHECK_READ BP_CHECK_WRITE
  by_cases hc : (mem.bp_checks (region32 a) &&& mask) &&& 3 = 0 <;> simp [upd, hc]

theorem actR_char {H : Type} (mem : Memory H) (a : Nat) :
    (activate_memory_break_read mem a).dbg_handler = mem.dbg_handler ∧
    (activate_memory_break_read mem a).base = mem.base ∧
    (activate_memory_break_read mem a).memtype = mem.memtype ∧
    (activate_memory_break_read mem a).bp_checks
      = upd mem.bp_checks (region32 a) (mem.bp_checks (region32 a) ||| 1) ∧
    (mem.bp_checks (region32 a) &&& 3 = 0 →
      (activate_memory_break_read mem a).handlers
        = upd mem.handlers (region32 a) mem.dbg_handler ∧
      (activate_memory_break_read mem a).saved_handlers
        = upd mem.saved_handlers (region32 a) (mem.handlers (region32 a))) ∧
    (mem.bp_checks (region32 a) &&& 3 ≠ 0 →
      (activate_memory_break_read mem a).handlers = mem.handlers ∧
      (activate_memory_break_read mem a).saved_handlers = mem.saved_handlers) :=
  bpActivate_char 1 mem a _ rfl

theorem actW_char {H : Type} (mem : Memory H) (a : Nat) :
    (activate_memory_break_write mem a).dbg_handler = mem.dbg_handler ∧
    (activate_memory_break_write mem a).base = mem.base ∧
    (activate_memory_break_write mem a).memtype = mem.memtype ∧
    (activate_memory_break_write mem a).bp_checks
      = upd mem.bp_checks (region32 a) (mem.bp_checks (region32 a) ||| 2) ∧
    (mem.bp_checks (region32 a) &&& 3 = 0 →
      (activate_memory_break_write mem a).handlers
        = upd mem.handlers (region32 a) mem.dbg_handler ∧
      (activate_memory_break_write mem a).saved_handlers
        = upd mem.saved_handlers (region32 a) (mem.handlers (region32 a))) ∧
    (mem.bp_checks (region32 a) &&& 3 ≠ 0 →
      (activate_memory_break_write mem a).handlers = mem.handlers ∧
      (activate_memory_break_write mem a).saved_handlers = mem.saved_handlers) :=
  bpActivate_char 2 mem a _ rfl

theorem deactR_char {H : Type} (mem : Memory H) (a : Nat) :
    (deactivate_memory_break_read mem a).dbg_handler = mem.dbg_handler ∧
    (deactivate_memory_break_read mem a).base = mem.base ∧
    (deactivate_memory_break_read mem a).memtype = mem.memtype ∧
    (deactivate_memory_break_read mem a).saved_handlers = mem.saved_handlers ∧
    (deactivate_memory_break_read mem a).bp_checks
      = upd mem.bp_checks (region32 a) (mem.bp_checks (region32 a) &&& 254) ∧
    ((mem.bp_checks (region32 a) &&& 254) &&& 3 = 0 →
      (deactivate_memory_break_read mem a).handlers
        = upd mem.handlers (region32 a) (mem.saved_handlers (region32 a))) ∧
    ((mem.bp_checks (region32 a) &&& 254) &&& 3 ≠ 0 →
      (deactivate_memory_break_read mem a).handlers = mem.handlers) :=
  bpDeactivate_char 254 mem a _ rfl

theorem deactW_char {H : Type} (mem : Memory H) (a : Nat) :
    (deactivate_memory_break_write mem a).dbg_handler = mem.dbg_handler ∧
    (deactivate_memory_break_write mem a).base = mem.base ∧
    (deactivate_memory_break_write mem a).memtype = mem.memtype ∧
    (deactivate_memory_break_write mem a).saved_handlers = mem.saved_handlers ∧
    (deactivate_memory_break_write mem a).bp_checks
      = upd mem.bp_checks (region32 a) (mem.bp_checks (region32 a) &&& 253) ∧
    ((mem.bp_checks (region32 a) &&& 253) &&& 3 = 0 →
      (deactivate_memory_break_write mem a).handlers
        = upd mem.handlers (region32 a) (mem.saved_handlers (region32 a))) ∧
    ((mem.bp_checks (region32 a) &&& 253) &&& 3 ≠ 0 →
      (deactivate_memory_break_write mem a).handlers = mem.handlers) :=
  bpDeactivate_char 253 mem a _ rfl

/-! Invariant preservation for each breakpoint operation. -/

theorem bpInv_step_act {H : Type} (mem0 mem op : Memory H) (a bit : Nat)
    (hbit : bit = 1 ∨ bit = 2)
    (hchar :
      op.dbg_handler = mem.dbg_handler ∧
      op.base = mem.base ∧
      op.memtype = mem.memtype ∧
      op.bp_checks = upd mem.bp_checks (region32 a) (mem.bp_checks (region32 a) ||| bit) ∧
      (mem.bp_checks (region32 a) &&& 3 = 0 →
        op.handlers = upd mem.handlers (region32 a) mem.dbg_handler ∧
        op.saved_handlers = upd mem.saved_handlers (region32 a) (mem.handlers (region32 a))) ∧
      (mem.bp_checks (region32 a) &&& 3 ≠ 0 →
        op.handlers = mem.handlers ∧
        op.saved_handlers = mem.saved_handlers))
    (hinv : bpInvariant mem0 mem) :
    bpInvariant mem0 op := by
  obtain ⟨hdbg, hreg⟩ := hinv
  obtain ⟨cdbg, _, _, cbp, cthen, celse⟩ := hchar
  refine ⟨cdbg.trans hdbg, ?_⟩
  intro r
  by_cases hr : r = region32 a
  · rcases bp_lt4_cases _ (hreg (region32 a)).1 with hb | hb | hb | hb
    · have hc : mem.bp_checks (region32 a) &&& 3 = 0 := by rw [hb]; decide
      obtain ⟨ch, cs⟩ := cthen hc
      rw [hr, cbp, ch, cs]
      simp only [upd, if_pos rfl, hb]
      rcases hbit with rfl | rfl
      · refine ⟨by decide, ?_, ?_⟩
        · intro h
          exact absurd h (by decide)
        · intro _
          exact ⟨(hreg (region32 a)).2.1 hb, hdbg⟩
      · refine ⟨by decide, ?_, ?_⟩
        · intro h
          exact absurd h (by decide)
        · intro _
          exact ⟨(hreg (region32 a)).2.1 hb, hdbg⟩
    all_goals {
      have hc : mem.bp_checks (region32 a) &&& 3 ≠ 0 := by rw [hb]; decide
      obtain ⟨ch, cs⟩ := celse hc
      rw [hr, cbp, ch, cs]
      simp only [upd, if_pos rfl, hb]
      have hprev := (hreg (region32 a)).2.2 (by rw [hb]; decide)
      rcases hbit with rfl | rfl <;>
        refine ⟨by decide, by intro h; exact absurd h (by decide), ?_⟩ <;>
        exact fun _ => ⟨hprev.1, hprev.2⟩ }
  · by_cases hc : mem.bp_checks (region32 a) &&& 3 = 0
    · obtain ⟨ch, cs⟩ := cthen hc
      rw [cbp, ch, cs]
      simp only [upd, if_neg hr]
      exact hreg r
    · obtain ⟨ch, cs⟩ := celse hc
      rw [cbp, ch, cs]
      simp only [upd, if_neg hr]
      exact hreg r

theorem bpInv_step_deact {H : Type} (mem0 mem op : Memory H) (a mask : Nat)
    (hmask : mask = 254 ∨ mask = 253)
    (hchar :
      op.dbg_handler = mem.dbg_handler ∧
      op.base = mem.base ∧
      op.memtype = mem.memtype ∧
      op.saved_handlers = mem.saved_handlers ∧
      op.bp_checks = upd mem.bp_checks (region32 a) (mem.bp_checks (region32 a) &&& mask) ∧
      ((mem.bp_checks (region32 a) &&& mask) &&& 3 = 0 →
        op.handlers = upd mem.handlers (region32 a) (mem.saved_handlers (region32 a))) ∧
      ((mem.bp_checks (region32 a) &&& mask) &&& 3 ≠ 0 →
        op.handlers = mem.handlers))
    (hne : mem.bp_checks (region32 a) ≠ 0)
    (hinv : bpInvariant mem0 mem) :
    bpInvariant mem0 op := by
  obtain ⟨hdbg, hreg⟩ := hinv
  obtain ⟨cdbg, _, _, csav, cbp, cthen, celse⟩ := hchar
  refine ⟨cdbg.trans hdbg, ?_⟩
  intro r
  by_cases hr : r = region32 a
  · have hprev := (hreg (region32 a)).2.2 hne
    rcases hmask with rfl | rfl <;>
      rcases bp_lt4_cases _ (hreg (region32 a)).1 with hb | hb | hb | hb
    · exact absurd hb hne
    · have hz : (mem.bp_checks (region32 a) &&& 254) &&& 3 = 0 := by rw [hb]; decide
      have ch := cthen hz
      rw [hr, cbp, ch, csav]
      simp only [upd, if_pos rfl, hb]
      refine ⟨by decide, ?_, ?_⟩
      · intro _
        exact hprev.1
      · intro h
        exact absurd h (by decide)
    · have hz : (mem.bp_checks (region32 a) &&& 254) &&& 3 ≠ 0 := by rw [hb]; decide
      have ch := celse hz
      rw [hr, cbp, ch, csav]
      simp only [upd, if_pos rfl, hb]
      refine ⟨by decide, ?_, ?_⟩
      · intro h
        exact absurd h (by decide)
      · intro _
        exact ⟨hprev.1, hprev.2⟩
    · have hz : (mem.bp_checks (region32 a) &&& 254) &&& 3 ≠ 0 := by rw [hb]; decide
      have ch := celse hz
      rw [hr, cbp, ch, csav]
      simp only [upd, if_pos rfl, hb]
      refine ⟨by decide, ?_, ?_⟩
      · intro h
        exact absurd h (by decide)
      · intro _
        exact ⟨hprev.1, hprev.2⟩
    · exact absurd hb hne
    · have hz : (mem.bp_checks (region32 a) &&& 253) &&& 3 ≠ 0 := by rw [hb]; decide
      have ch := celse hz
      rw [hr, cbp, ch, csav]
      simp only [upd, if_pos rfl, hb]
      refine ⟨by decide, ?_, ?_⟩
      · intro h
        exact absurd h (by decide)
      · intro _
        exact ⟨hprev.1, hprev.2⟩
    · have hz : (mem.bp_checks (region32 a) &&& 253) &&& 3 = 0 := by rw [hb]; decide
      have ch := cthen hz
      rw [hr, cbp, ch, csav]
      simp only [upd, if_pos rfl, hb]
      refine ⟨by decide, ?_, ?_⟩
      · intro _
        exact hprev.1
      · intro h
        exact absurd h (by decide)
    · have hz : (mem.bp_checks (region32 a) &&& 253) &&& 3 ≠ 0 := by rw [hb]; decide
      have ch := celse hz
      rw [hr, cbp, ch, csav]
      simp only [upd, if_pos rfl, hb]
      refine ⟨by decide, ?_, ?_⟩
      · intro h
        exact absurd h (by decide)
      · intro _
        exact ⟨hprev.1, hprev.2⟩
  · by_cases hz : (mem.bp_checks (region32 a) &&& mask) &&& 3 = 0
    · have ch := cthen hz
      rw [cbp, ch, csav]
      simp only [upd, if_neg hr]
      exact hreg r
    · have ch := celse hz
      rw [cbp, ch, csav]
      simp only [upd, if_neg hr]
      exact hreg r

theorem bpInv_step {H : Type} (mem0 mem : Memory H) (op : BpOp × Nat)
    (hinv : bpInvariant mem0 mem) (hok : bpStepOk mem op = true) :
    bpInvariant mem0 (applyBpOp mem op) := by
  obtain ⟨kind, a⟩ := op
  cases kind
  · exact bpInv_step_act mem0 mem _ a 1 (Or.inl rfl) (actR_char mem a) hinv
  · exact bpInv_step_act mem0 mem _ a 2 (Or.inr rfl) (actW_char mem a) hinv
  · have hne : mem.bp_checks (region32 a) ≠ 0 := by
      simpa [bpStepOk] using hok
    exact bpInv_step_deact mem0 mem _ a 254 (Or.inl rfl) (deactR_char mem a) hne hinv
  · have hne : mem.bp_checks (region32 a) ≠ 0 := by
      simpa [bpStepOk] using hok
    exact bpInv_step_deact mem0 mem _ a 253 (Or.inr rfl) (deactW_char mem a) hne hinv

theorem bpInv_run {H : Type} (mem0 : Memory H) :
    ∀ (ops : List (BpOp × Nat)) (mem : Memory H),
      bpInvariant mem0 mem → bpSeqOk mem ops = true →
      bpInvariant mem0 (runBpOps mem ops) := by
  intro ops
  induction ops with
  | nil => intro mem h _; exact h
  | cons op ops ih =>
    intro mem hinv hok
    have hok2 : bpStepOk mem op = true ∧ bpSeqOk (applyBpOp mem op) ops = true := by
      simpa [bpSeqOk, Bool.and_eq_true] using hok
    unfold runBpOps
    simp only [List.foldl_cons]
    exact ih (applyBpOp mem op) (bpInv_step mem0 mem op hinv hok2.1) hok2.2

/-! Claim theorems. -/

/-- C1 (corrected): deactivating a breakpoint kind on a region whose mask
has neither bit set is not a full no-op.  The mask and the shadow are
unchanged, but the live handler slot is overwritten with the shadow slot
content, so the operation leaves the live slot (and hence dispatch)
unchanged exactly when the shadow already equals the live handler. -/
theorem c1_deactivate_inactive {H : Type} (mem : Memory H) (a : Nat)
    (h : mem.bp_checks (region32 a) = 0) :
    ((deactivate_memory_break_read mem a).bp_checks = mem.bp_checks ∧
     (deactivate_memory_break_read mem a).saved_handlers = mem.saved_handlers ∧
     (deactivate_memory_break_read mem a).handlers
       = upd mem.handlers (region32 a) (mem.saved_handlers (region32 a)) ∧
     ((deactivate_memory_break_read mem a).handlers = mem.handlers ↔
       mem.saved_handlers (region32 a) = mem.handlers (region32 a))) ∧
    ((deactivate_memory_break_write mem a).bp_checks = mem.bp_checks ∧
     (deactivate_memory_break_write mem a).saved_handlers = mem.saved_handlers ∧
     (deactivate_memory_break_write mem a).handlers
       = upd mem.handlers (region32 a) (mem.saved_handlers (region32 a)) ∧
     ((deactivate_memory_break_write mem a).handlers = mem.handlers ↔
       mem.saved_handlers (region32 a) = mem.handlers (region32 a))) := by
  obtain ⟨_, _, _, csavR, cbpR, cthenR, _⟩ := deactR_char mem a
  obtain ⟨_, _, _, csavW, cbpW, cthenW, _⟩ := deactW_char mem a
  have hzR : (mem.bp_checks (region32 a) &&& 254) &&& 3 = 0 := by rw [h]; decide
  have hzW : (mem.bp_checks (region32 a) &&& 253) &&& 3 = 0 := by rw [h]; decide
  have chR := cthenR hzR
  have chW := cthenW hzW
  refine ⟨⟨?_, csavR, chR, ?_⟩, ⟨?_, csavW, chW, ?_⟩⟩
  · rw [cbpR, upd_eq_self_iff, h]
    decide
  · rw [chR]
    exact upd_eq_self_iff mem.handlers (region32 a) (mem.saved_handlers (region32 a))
  · rw [cbpW, upd_eq_self_iff, h]
    decide
  · rw [chW]
    exact upd_eq_self_iff mem.handlers (region32 a) (mem.saved_handlers (region32 a))

/-- Witness for C1: the amended theorem instantiated at a concrete state
with a cleared mask. -/
theorem c1_witness :
    memSampleA.bp_checks (region32 0) = 0 ∧
    (deactivate_memory_break_read memSampleA 0).handlers
      = upd memSampleA.handlers (region32 0) (memSampleA.saved_handlers (region32 0)) :=
  ⟨rfl, ((c1_deactivate_inactive memSampleA 0 rfl).1).2.2.1⟩

/-- Counterexample for C1 as stated: in the state `memSampleA` region 0 has
a zero mask, live handler 10 and shadow 20, yet deactivating the read
breakpoint there changes the live handler slot to 20. -/
theorem c1_counterexample :
    memSampleA.bp_checks 0 = 0 ∧
    memSampleA.handlers 0 = 10 ∧
    (deactivate_memory_break_read memSampleA 0).handlers 0 = 20 ∧
    (deactivate_memory_break_read memSampleA 0).handlers 0 ≠ memSampleA.handlers 0 := by
  refine ⟨rfl, rfl, ?_, ?_⟩ <;> decide

/-- C2 (corrected): `init_memory` installs no handler anywhere.  With an
empty mapping list it returns the input state with only the mask array
cleared and the debug handler and base stored; the live handler, shadow and
region type slots keep their pre-call contents, so no default unmapped
handler exists unless the caller supplied one through the mappings. -/
theorem c2_init_empty_installs_nothing {H : Type} (bpE : Nat → Bool)
    (mem : Memory H) (base : Nat) (dbg : H) :
    init_memory bpE mem [] base dbg
      = { mem with bp_checks := fun _ => 0, dbg_handler := dbg, base := base } := rfl

/-- Counterexample for C2 as stated: two states that differ only in the
pre-call content of live-handler slot 0 still differ there after
`init_memory` with an empty mapping list, so the slot does not hold any
fixed default unmapped handler whose read would return a defined sentinel. -/
theorem c2_counterexample :
    (init_memory bpNone memSampleA [] 0 99).handlers 0 = 10 ∧
    (init_memory bpNone memSampleB [] 0 99).handlers 0 = 11 ∧
    (init_memory bpNone memSampleA [] 0 99).handlers 0
      ≠ (init_memory bpNone memSampleB [] 0 99).handlers 0 := by
  refine ⟨rfl, rfl, ?_⟩
  decide

/-- C3 (corrected): the exact failure behavior of `init_mem_base`.  When
the k-th allocation fails, the failing field is set to null, the diagnostic
log names exactly the failing buffer and the return code is 1, but the
buffers allocated earlier in the call are still allocated when it returns
(the `live` list); nothing is released before returning the error. -/
theorem c3_alloc_failure_behavior (alloc : MbBuf → Option Nat) (mb : MemoryBase) :
    (alloc .rdram = none →
      init_mem_base alloc mb = ⟨1, { mb with rdram := none }, [], [.rdram]⟩) ∧
    (∀ p1, alloc .rdram = some p1 → alloc .cartrom = none →
      init_mem_base alloc mb
        = ⟨1, { mb with rdram := some p1, cartrom := none }, [.rdram], [.cartrom]⟩) ∧
    (∀ p1 p2, alloc .rdram = some p1 → alloc .cartrom = some p2 → alloc .rspmem = none →
      init_mem_base alloc mb
        = ⟨1, { mb with rdram := some p1, cartrom := some p2, rspmem := none },
            [.rdram, .cartrom], [.rspmem]⟩) ∧
    (∀ p1 p2 p3, alloc .rdram = some p1 → alloc .cartrom = some p2 →
      alloc .rspmem = some p3 → alloc .ddrom = none →
      init_mem_base alloc mb
        = ⟨1, { mb with rdram := some p1, cartrom := some p2, rspmem := some p3,
                        ddrom := none },
            [.rdram, .cartrom, .rspmem], [.ddrom]⟩) ∧
    (∀ p1 p2 p3 p4, alloc .rdram = some p1 → alloc .cartrom = some p2 →
      alloc .rspmem = some p3 → alloc .ddrom = some p4 → alloc .pifmem = none →
      init_mem_base alloc mb
        = ⟨1, { mb with rdram := some p1, cartrom := some p2, rspmem := some p3,
                        ddrom := some p4, pifmem := none },
            [.rdram, .cartrom, .rspmem, .ddrom], [.pifmem]⟩) ∧
    (∀ p1 p2 p3 p4 p5, alloc .rdram = some p1 → alloc .cartrom = some p2 →
      alloc .rspmem = some p3 → alloc .ddrom = some p4 → alloc .pifmem = some p5 →
      init_mem_base alloc mb
        = ⟨0, { mb with rdram := some p1, cartrom := some p2, rspmem := some p3,
                        ddrom := some p4, pifmem := some p5 },
            [.rdram, .cartrom, .rspmem, .ddrom, .pifmem], []⟩) := by
  refine ⟨?_, ?_, ?_, ?_, ?_, ?_⟩
  · intro h1
    simp [init_mem_base, h1]
  · intro p1 h1 h2
    simp [init_mem_base, h1, h2]
  · intro p1 p2 h1 h2 h3
    simp [init_mem_base, h1, h2, h3]
  · intro p1 p2 p3 h1 h2 h3 h4
    simp [init_mem_base, h1, h2, h3, h4]
  · intro p1 p2 p3 p4 h1 h2 h3 h4 h5
    simp [init_mem_base, h1, h2, h3, h4, h5]
  · intro p1 p2 p3 p4 p5 h1 h2 h3 h4 h5
    simp [init_mem_base, h1, h2, h3, h4, h5]

/-- Witness for C3: the amended theorem instantiated at the oracle that
fails on the fourth buffer. -/
theorem c3_witness :
    allocFail4 .rdram = some 1 ∧ allocFail4 .cartrom = some 2 ∧
    allocFail4 .rspmem = some 3 ∧ allocFail4 .ddrom = none ∧
    init_mem_base allocFail4 mbNull
      = ⟨1, { mbNull with rdram := some 1, cartrom := some 2, rspmem := some 3,
                          ddrom := none },
          [.rdram, .cartrom, .rspmem], [.ddrom]⟩ :=
  ⟨rfl, rfl, rfl, rfl,
    (c3_alloc_failure_behavior allocFail4 mbNull).2.2.2.1 1 2 3 rfl rfl rfl rfl⟩

/-- Counterexample for C3 as stated: with the fourth allocation failing,
`init_mem_base` returns the error with the first three buffers still
allocated, so previously-succeeded allocations are not released before the
error is returned. -/
theorem c3_counterexample :
    (init_mem_base allocFail4 mbNull).ret = 1 ∧
    (init_mem_base allocFail4 mbNull).log = [.ddrom] ∧
    (init_mem_base allocFail4 mbNull).live = [.rdram, .cartrom, .rspmem] ∧
    (init_mem_base allocFail4 mbNull).live ≠ [] := by
  refine ⟨rfl, rfl, rfl, ?_⟩
  decide

/-- C4 (spec-modelled, conditional): for every assignment of the abstract
memory-map constants and buffer sizes satisfying the size relations
`mbSizeOK`, `mem_base_u32` returns, for every address, either null or an
offset strictly inside the single buffer designated by the matching rule. -/
theorem c4_mem_base_u32_in_bounds (c : MemConstants) (hc : mbSizeOK c)
    (address : Nat) : mbResolveInBounds c (mem_base_u32 c address) := by
  obtain ⟨h0, h1, h2, h3, h4, h5, h6, h7⟩ := hc
  have hx : u32 address < 4294967296 := by
    unfold u32
    omega
  unfold mem_base_u32
  split_ifs with g1 g2 g3 g4 g5 g6 <;>
    simp only [mbResolveInBounds, mbPtrInBounds]
  · -- main RAM below the register boundary
    rw [h0]
    unfold u32sub
    omega
  · -- boot window inside the cartridge range
    have hm : u32 address &&& 0xfff00000 = u32 address - u32 address % 1048576 := by
      rw [show (0xfff00000 : Nat) = 2 ^ 32 - 2 ^ 20 by norm_num]
      exact land_high_mask 32 20 (u32 address) (by norm_num) (by norm_num at hx ⊢; omega)
    rw [hm] at g3
    unfold u32sub
    have hmod : u32 address % 1048576 < 1048576 := Nat.mod_lt _ (by norm_num)
    omega
  · -- cartridge ROM
    unfold u32sub
    omega
  · -- auxiliary (disk drive) ROM window
    have hm : u32 address &&& 0xfe000000 = u32 address - u32 address % 33554432 := by
      rw [show (0xfe000000 : Nat) = 2 ^ 32 - 2 ^ 25 by norm_num]
      exact land_high_mask 32 25 (u32 address) (by norm_num) (by norm_num at hx ⊢; omega)
    rw [hm] at g4
    unfold u32sub
    have hmod : u32 address % 33554432 < 33554432 := Nat.mod_lt _ (by norm_num)
    omega
  · -- coprocessor scratch window
    have hm : u32 address &&& 0xffffe000 = u32 address - u32 address % 8192 := by
      rw [show (0xffffe000 : Nat) = 2 ^ 32 - 2 ^ 13 by norm_num]
      exact land_high_mask 32 13 (u32 address) (by norm_num) (by norm_num at hx ⊢; omega)
    rw [hm] at g5
    unfold u32sub
    have hmod : u32 address % 8192 < 8192 := Nat.mod_lt _ (by norm_num)
    omega
  · -- secondary main RAM range, mapped past the register boundary
    unfold u32sub
    omega

/-- Witness for C4: the conditional bounds theorem instantiated at a
concrete satisfying constant assignment and a concrete address in the boot
window. -/
theorem c4_witness :
    mbSizeOK mcSample ∧ mbResolveInBounds mcSample (mem_base_u32 mcSample 0x1fc00040) :=
  ⟨by unfold mbSizeOK mcSample; norm_num,
   c4_mem_base_u32_in_bounds mcSample (by unfold mbSizeOK mcSample; norm_num) 0x1fc00040⟩

/-- C5 (confirmed): `mem_base_u32` computes exactly the first-match-wins
evaluation of the six priority rules of spec section 4.2, for every
constant assignment and every address. -/
theorem c5_resolver_priority_order (c : MemConstants) (address : Nat) :
    mem_base_u32 c address = mem_base_u32_spec c address := by
  unfold mem_base_u32 mem_base_u32_spec resolveRules
  by_cases g1 : u32 address < c.MM_RDRAM_REGS <;>
  by_cases g2 : c.MM_CART_ROM ≤ u32 address <;>
  by_cases g4 : u32 address &&& 0xfe000000 = c.MM_DD_ROM <;>
  by_cases g5 : u32 address &&& 0xffffe000 = c.MM_RSP_MEM <;>
  by_cases g6 : c.MM_RDRAM_DRAM2 ≤ u32 address <;>
  simp [List.find?, g1, g2, g4, g5, g6, apply_ite]

/-- C6 (corrected): over any well-paired sequence of activate/deactivate
operations (no deactivation on a region whose mask is zero) starting from an
all-inactive state, every region with a nonzero mask has its pre-interception
handler in the shadow slot and the shared debug handler in the live slot,
and every region with a zero mask has its original handler in the live
slot. -/
theorem c6_overlay_invariant {H : Type} (mem0 : Memory H)
    (ops : List (BpOp × Nat))
    (h0 : ∀ r, mem0.bp_checks r = 0)
    (hok : bpSeqOk mem0 ops = true) :
    bpInvariant mem0 (runBpOps mem0 ops) := by
  apply bpInv_run mem0 ops mem0 ?_ hok
  refine ⟨rfl, ?_⟩
  intro r
  refine ⟨by rw [h0 r]; decide, fun _ => rfl, fun h => absurd (h0 r) h⟩

/-- Witness for C6: the invariant holds after activating and then
deactivating the read breakpoint on region 0 from a fully inactive state. -/
theorem c6_witness :
    memSampleA.bp_checks = (fun _ => 0) ∧
    bpSeqOk memSampleA opsSample = true ∧
    bpInvariant memSampleA (runBpOps memSampleA opsSample) :=
  ⟨rfl, rfl, c6_overlay_invariant memSampleA opsSample (fun _ => rfl) rfl⟩

/-- Counterexample for C6 as stated: in the all-inactive state `memSampleA`
(live handler 10, stale shadow 20), the one-element sequence that just
deactivates the read breakpoint on region 0 ends with a zero mask but with
live handler 20, not the real handler 10. -/
theorem c6_counterexample :
    memSampleA.bp_checks = (fun _ => 0) ∧
    (runBpOps memSampleA [(.deactR, 0)]).bp_checks 0 = 0 ∧
    memSampleA.handlers 0 = 10 ∧
    (runBpOps memSampleA [(.deactR, 0)]).handlers 0 = 20 ∧
    (runBpOps memSampleA [(.deactR, 0)]).handlers 0 ≠ memSampleA.handlers 0 := by
  refine ⟨rfl, rfl, rfl, ?_, ?_⟩ <;> decide

/-- C7 (corrected): the install/activate-read/deactivate-read round trip
restores dispatch to the installed handler provided that, at install time,
the breakpoint mask of the region is zero and the external registry reports no
enabled breakpoint for the region. -/
theorem c7_round_trip {H : Type} (bpE : Nat → Bool) (mem : Memory H)
    (m : MemMapping H) (a : Nat)
    (hb : region32 m.mbegin ≤ region32 a) (he : region32 a ≤ region32 m.mend)
    (hmask : mem.bp_checks (region32 a) = 0)
    (hreg : bpE (region32 a) = false) :
    (apply_mem_mapping bpE mem m).handlers (region32 a) = m.handler ∧
    (deactivate_memory_break_read
        (activate_memory_break_read (apply_mem_mapping bpE mem m) a) a).handlers
        (region32 a) = m.handler ∧
    (deactivate_memory_break_read
        (activate_memory_break_read (apply_mem_mapping bpE mem m) a) a).bp_checks
        (region32 a) = 0 := by
  have hin := apply_mem_mapping_in bpE mem m (region32 a) hb he
  have h1 : (apply_mem_mapping bpE mem m).handlers (region32 a) = m.handler :=
    (hin.2.2 hreg).1
  have hbp1 : (apply_mem_mapping bpE mem m).bp_checks (region32 a) = 0 := by
    rw [(apply_mem_mapping_bp bpE mem m).1]
    exact hmask
  obtain ⟨_, _, _, cbp2, cthen2, _⟩ := actR_char (apply_mem_mapping bpE mem m) a
  have hz2 : (apply_mem_mapping bpE mem m).bp_checks (region32 a) &&& 3 = 0 := by
    rw [hbp1]
    decide
  obtain ⟨ch2, cs2⟩ := cthen2 hz2
  have hbp2 : (activate_memory_break_read (apply_mem_mapping bpE mem m) a).bp_checks
      (region32 a) = 1 := by
    rw [cbp2]
    simp [upd, hbp1]
  have hsv2 : (activate_memory_break_read (apply_mem_mapping bpE mem m) a).saved_handlers
      (region32 a) = m.handler := by
    rw [cs2]
    simp only [upd, if_pos rfl]
    exact h1
  obtain ⟨_, _, _, _, cbp3, cthen3, _⟩ :=
    deactR_char (activate_memory_break_read (apply_mem_mapping bpE mem m) a) a
  have hz3 : ((activate_memory_break_read (apply_mem_mapping bpE mem m) a).bp_checks
      (region32 a) &&& 254) &&& 3 = 0 := by
    rw [hbp2]
    decide
  have ch3 := cthen3 hz3
  refine ⟨h1, ?_, ?_⟩
  · rw [ch3]
    simp only [upd, if_pos rfl]
    exact hsv2
  · rw [cbp3]
    simp [upd, hbp2]

/-- Witness for C7: the amended round trip instantiated at the mapping
covering region 0 with handler 30, a clean state and a silent registry. -/
theorem c7_witness :
    region32 mapSample.mbegin ≤ region32 0 ∧ region32 0 ≤ region32 mapSample.mend ∧
    memSampleA.bp_checks (region32 0) = 0 ∧ bpNone (region32 0) = false ∧
    (deactivate_memory_break_read
        (activate_memory_break_read (apply_mem_mapping bpNone memSampleA mapSample) 0)
        0).handlers (region32 0) = mapSample.handler :=
  ⟨by decide, by decide, rfl, rfl,
   (c7_round_trip bpNone memSampleA mapSample 0 (by decide) (by decide) rfl rfl).2.1⟩

/-- Counterexample for C7 as stated: two reachable situations break the
unrestricted round trip.  With the read bit already set at install time
(state `memSampleR`, stale shadow 20), the round trip ends with live
handler 20 instead of the installed handler 30; with the registry reporting
an enabled breakpoint at install time (oracle `bpAll`), it ends with the
debug handler 99 in both the live and the shadow slot. -/
theorem c7_counterexample :
    memSampleR.bp_checks 0 = 1 ∧
    mapSample.handler = 30 ∧
    (deactivate_memory_break_read
        (activate_memory_break_read (apply_mem_mapping bpNone memSampleR mapSample) 0)
        0).handlers 0 = 20 ∧
    (deactivate_memory_break_read
        (activate_memory_break_read (apply_mem_mapping bpNone memSampleR mapSample) 0)
        0).handlers 0 ≠ mapSample.handler ∧
    (deactivate_memory_break_read
        (activate_memory_break_read (apply_mem_mapping bpAll memSampleA mapSample) 0)
        0).handlers 0 = 99 ∧
    (deactivate_memory_break_read
        (activate_memory_break_read (apply_mem_mapping bpAll memSampleA mapSample) 0)
        0).handlers 0 ≠ mapSample.handler := by
  refine ⟨rfl, rfl, ?_, ?_, ?_, ?_⟩ <;> decide

/-- C8 (confirmed): `apply_mem_mapping` updates the region type and handler
of every region index in the inclusive range `[begin >> 16, end >> 16]`
(storing the handler in the live slot, or in the shadow slot with the debug
handler live when the registry reports an enabled breakpoint), leaves every
region outside the range completely unchanged, and never touches any
breakpoint mask. -/
theorem c8_apply_mapping_range_frame {H : Type} (bpE : Nat → Bool)
    (mem : Memory H) (m : MemMapping H) (r : Nat) :
    ((region32 m.mbegin ≤ r ∧ r ≤ region32 m.mend) →
      (apply_mem_mapping bpE mem m).memtype r = m.type ∧
      (if bpE r then
        (apply_mem_mapping bpE mem m).saved_handlers r = m.handler ∧
        (apply_mem_mapping bpE mem m).handlers r = mem.dbg_handler
       else
        (apply_mem_mapping bpE mem m).handlers r = m.handler ∧
        (apply_mem_mapping bpE mem m).saved_handlers r = mem.saved_handlers r)) ∧
    (¬(region32 m.mbegin ≤ r ∧ r ≤ region32 m.mend) →
      (apply_mem_mapping bpE mem m).handlers r = mem.handlers r ∧
      (apply_mem_mapping bpE mem m).saved_handlers r = mem.saved_handlers r ∧
      (apply_mem_mapping bpE mem m).memtype r = mem.memtype r) ∧
    (apply_mem_mapping bpE mem m).bp_checks r = mem.bp_checks r := by
  refine ⟨?_, ?_, ?_⟩
  · rintro ⟨hb, he⟩
    have hin := apply_mem_mapping_in bpE mem m r hb he
    refine ⟨hin.1, ?_⟩
    by_cases hbe : bpE r = true
    · rw [if_pos hbe]
      exact hin.2.1 hbe
    · have hbe2 : bpE r = false := by
        simpa using hbe
      rw [if_neg (by simp [hbe2])]
      exact hin.2.2 hbe2
  · intro hout
    exact apply_mem_mapping_out bpE mem m r hout
  · rw [(apply_mem_mapping_bp bpE mem m).1]

/-- Witness for C8: the range/frame theorem instantiated at the mapping
covering regions 1 and 2, checked inside the range at region 1 and outside
at region 0. -/
theorem c8_witness :
    (region32 mapSample2.mbegin ≤ 1 ∧ 1 ≤ region32 mapSample2.mend) ∧
    ¬(region32 mapSample2.mbegin ≤ 0 ∧ 0 ≤ region32 mapSample2.mend) ∧
    (apply_mem_mapping bpNone memSampleA mapSample2).memtype 1 = mapSample2.type ∧
    (apply_mem_mapping bpNone memSampleA mapSample2).handlers 0
      = memSampleA.handlers 0 :=
  ⟨by decide, by decide,
   ((c8_apply_mapping_range_frame bpNone memSampleA mapSample2 1).1 (by decide)).1,
   ((c8_apply_mapping_range_frame bpNone memSampleA mapSample2 0).2.1 (by decide)).1⟩

/-- C9 (confirmed): when the external registry reports an enabled breakpoint
for a region covered by the installed mapping, the newly installed handler
goes to the shadow slot and the shared debug handler goes to the live slot,
so installing a mapping does not clear the active interception. -/
theorem c9_install_preserves_interception {H : Type} (bpE : Nat → Bool)
    (mem : Memory H) (m : MemMapping H) (r : Nat)
    (hb : region32 m.mbegin ≤ r) (he : r ≤ region32 m.mend)
    (hbe : bpE r = true) :
    (apply_mem_mapping bpE mem m).saved_handlers r = m.handler ∧
    (apply_mem_mapping bpE mem m).handlers r = mem.dbg_handler :=
  (apply_mem_mapping_in bpE mem m r hb he).2.1 hbe

/-- Witness for C9: instantiated at a registry with an enabled breakpoint
on region 0 and the mapping installing handler 30 there. -/
theorem c9_witness :
    region32 mapSample.mbegin ≤ 0 ∧ 0 ≤ region32 mapSample.mend ∧ bpAll 0 = true ∧
    (apply_mem_mapping bpAll memSampleA mapSample).saved_handlers 0
      = mapSample.handler ∧
    (apply_mem_mapping bpAll memSampleA mapSample).handlers 0
      = memSampleA.dbg_handler :=
  ⟨by decide, by decide, rfl,
   (c9_install_preserves_interception bpAll memSampleA mapSample 0
      (by decide) (by decide) rfl).1,
   (c9_install_preserves_interception bpAll memSampleA mapSample 0
      (by decide) (by decide) rfl).2⟩

/-- C10 (confirmed): installing a mapping never modifies the breakpoint
mask array, and after installing over a region whose registry breakpoint is
enabled, the debug trampolines forward every access to the newly shadowed
handler while reporting a hit exactly when the corresponding mask bit (set
only by an explicit activation) was already set before the install. -/
theorem c10_install_preserves_mask {H : Type} (bpE : Nat → Bool)
    (mem : Memory H) (m : MemMapping H) (a : Nat)
    (hb : region32 m.mbegin ≤ region32 a) (he : region32 a ≤ region32 m.mend)
    (hbe : bpE (region32 a) = true) :
    (apply_mem_mapping bpE mem m).bp_checks = mem.bp_checks ∧
    read_with_bp_checks (apply_mem_mapping bpE mem m) a
      = (mem.bp_checks (region32 a) &&& BP_CHECK_READ != 0, m.handler) ∧
    write_with_bp_checks (apply_mem_mapping bpE mem m) a
      = (mem.bp_checks (region32 a) &&& BP_CHECK_WRITE != 0, m.handler) := by
  have hbp := (apply_mem_mapping_bp bpE mem m).1
  have hin := (apply_mem_mapping_in bpE mem m (region32 a) hb he).2.1 hbe
  refine ⟨hbp, ?_, ?_⟩
  · simp only [read_with_bp_checks]
    rw [hbp, hin.1]
  · simp only [write_with_bp_checks]
    rw [hbp, hin.1]

/-- Witness for C10: instantiated at a registry with an enabled breakpoint
on region 0, a state with a clear mask and the mapping installing
handler 30: the read trampoline does not report and forwards to 30. -/
theorem c10_witness :
    bpAll (region32 0) = true ∧
    read_with_bp_checks (apply_mem_mapping bpAll memSampleA mapSample) 0
      = (false, mapSample.handler) := by
  refine ⟨rfl, ?_⟩
  rw [(c10_install_preserves_mask bpAll memSampleA mapSample 0
    (by decide) (by decide) rfl).2.1]
  decide

end Mupen
